import Mathlib

/-!
Verification development for the AVA video-processing pipeline.

The repository ships the command/UI layer (`src/main.js`) together with
documentation of a Rust/Tauri backend (`src-tauri/src/lib.rs`: task manager,
checkpoint store, stage executors) whose source is not part of the tree.
Every definition whose doc comment starts with "Modelled from the spec"
models that missing backend from the specification; the UI command layer
(`createTask`, `processVideo`) is embedded directly from `src/main.js`.
-/

namespace Ava

/-- Modelled from the spec: one timestamped transcription segment
`{start: seconds, end: seconds, text: string}` (§3, Checkpoint.transcription). -/
structure Segment where
  start : Nat
  «end» : Nat
  text : String
deriving DecidableEq

/-- Modelled from the spec: one screenshot candidate, a target timestamp plus
rationale text chosen by the analysis stage (§3, Checkpoint.screenshot_candidates). -/
structure Candidate where
  timestamp : Nat
  rationale : String
deriving DecidableEq

/-- Modelled from the spec: one captured-and-captioned screenshot
`{timestamp, image_reference, caption}` (§3, Checkpoint.screenshots). -/
structure Screenshot where
  timestamp : Nat
  image_reference : String
  caption : String
deriving DecidableEq

/-- Modelled from the spec: the Checkpoint, the resumability unit (§3).
Field absence (`none`) denotes "stage not yet run"; `screenshots` is built
incrementally, one entry per successfully captured-and-captioned candidate. -/
structure Checkpoint where
  audio_path : Option String
  transcription : Option (List Segment)
  screenshot_candidates : Option (List Candidate)
  screenshots : List Screenshot
deriving DecidableEq

/-- Modelled from the spec: the empty checkpoint created with a fresh task (§3). -/
def emptyCheckpoint : Checkpoint :=
  { audio_path := none, transcription := none, screenshot_candidates := none,
    screenshots := [] }

/-- Modelled from the spec: the persisted checkpoint file is one JSON document
per task (§6).  A small JSON value universe suffices for the Checkpoint fields. -/
inductive Json where
  | num (n : Nat)
  | str (s : String)
  | arr (elems : List Json)
  | obj (fields : List (String × Json))

/-- Modelled from the spec: serialization of one transcription segment. -/
def segToJson (s : Segment) : Json :=
  .obj [("start", .num s.start), ("end", .num s.«end»), ("text", .str s.text)]

/-- Modelled from the spec: deserialization of one transcription segment. -/
def segFromJson : Json → Option Segment
  | .obj [("start", .num a), ("end", .num b), ("text", .str t)] =>
      some { start := a, «end» := b, text := t }
  | _ => none

/-- Modelled from the spec: serialization of one screenshot candidate. -/
def candToJson (c : Candidate) : Json :=
  .obj [("timestamp", .num c.timestamp), ("rationale", .str c.rationale)]

/-- Modelled from the spec: deserialization of one screenshot candidate. -/
def candFromJson : Json → Option Candidate
  | .obj [("timestamp", .num n), ("rationale", .str r)] =>
      some { timestamp := n, rationale := r }
  | _ => none

/-- Modelled from the spec: serialization of one screenshot record. -/
def shotToJson (s : Screenshot) : Json :=
  .obj [("timestamp", .num s.timestamp), ("image_reference", .str s.image_reference),
        ("caption", .str s.caption)]

/-- Modelled from the spec: deserialization of one screenshot record. -/
def shotFromJson : Json → Option Screenshot
  | .obj [("timestamp", .num n), ("image_reference", .str i), ("caption", .str c)] =>
      some { timestamp := n, image_reference := i, caption := c }
  | _ => none

/-- Parse every element of a JSON list, failing if any element fails. -/
def parseList (p : Json → Option α) : List Json → Option (List α)
  | [] => some []
  | j :: rest =>
    match p j with
    | none => none
    | some a =>
      match parseList p rest with
      | none => none
      | some as => some (a :: as)

/-- Modelled from the spec: Checkpoint serialization; absent fields are omitted
from the JSON object, not written as null (§6). -/
def ckToJson (c : Checkpoint) : Json :=
  .obj ((match c.audio_path with
         | some p => [("audio_path", Json.str p)]
         | none => []) ++
        (match c.transcription with
         | some segs => [("transcription", Json.arr (segs.map segToJson))]
         | none => []) ++
        (match c.screenshot_candidates with
         | some cs => [("screenshot_candidates", Json.arr (cs.map candToJson))]
         | none => []) ++
        [("screenshots", Json.arr (c.screenshots.map shotToJson))])

/-- Parse an optional leading `audio_path` field. -/
def parseAudioField : List (String × Json) →
    Option (Option String × List (String × Json))
  | [] => some (none, [])
  | (k, v) :: rest =>
    if k = "audio_path" then
      match v with
      | .str p => some (some p, rest)
      | _ => none
    else some (none, (k, v) :: rest)

/-- Parse an optional leading `transcription` field. -/
def parseTransField : List (String × Json) →
    Option (Option (List Segment) × List (String × Json))
  | [] => some (none, [])
  | (k, v) :: rest =>
    if k = "transcription" then
      match v with
      | .arr js =>
        match parseList segFromJson js with
        | some segs => some (some segs, rest)
        | none => none
      | _ => none
    else some (none, (k, v) :: rest)

/-- Parse an optional leading `screenshot_candidates` field. -/
def parseCandsField : List (String × Json) →
    Option (Option (List Candidate) × List (String × Json))
  | [] => some (none, [])
  | (k, v) :: rest =>
    if k = "screenshot_candidates" then
      match v with
      | .arr js =>
        match parseList candFromJson js with
        | some cs => some (some cs, rest)
        | none => none
      | _ => none
    else some (none, (k, v) :: rest)

/-- Modelled from the spec: Checkpoint deserialization, accepting exactly the
documents produced by `ckToJson` (fields in canonical order, absence not null). -/
def ckFromJson : Json → Option Checkpoint
  | .obj fs =>
    match parseAudioField fs with
    | none => none
    | some (ap, fs1) =>
      match parseTransField fs1 with
      | none => none
      | some (tr, fs2) =>
        match parseCandsField fs2 with
        | none => none
        | some (sc, fs3) =>
          match fs3 with
          | [("screenshots", .arr js)] =>
            match parseList shotFromJson js with
            | some shots =>
                some { audio_path := ap, transcription := tr,
                       screenshot_candidates := sc, screenshots := shots }
            | none => none
          | _ => none
  | _ => none


/-- Modelled from the spec: the task lifecycle state machine values (§3, §4.3). -/
inductive Status where
  | Pending
  | Extracting
  | Transcribing
  | Analyzing
  | CapturingScreenshots
  | Completed
  | Failed
deriving DecidableEq, BEq

/-- Modelled from the spec: the error taxonomy surfaced by Task Manager and
Checkpoint Store operations (§7). -/
inductive PError where
  | notFound
  | alreadyRunning
  | invalidState
  | invalidInput
  | persistence
deriving DecidableEq

/-- Modelled from the spec: the final aggregated output, transcript plus
captioned screenshot list, present only when status = Completed (§3). -/
structure TaskResult where
  transcription : List Segment
  screenshots : List Screenshot
deriving DecidableEq

/-- Modelled from the spec: the Task record, the unit of work (§3).  Wall-clock
timestamps are outside the model. -/
structure Task where
  id : Nat
  video_path : String
  status : Status
  checkpoint : Checkpoint
  error : Option String
  result : Option TaskResult
deriving DecidableEq

/-- Modelled from the spec: the external collaborators (§6) plus the filesystem
facts `create_task` validation consults, as a deterministic environment. -/
structure Env where
  fileExists : String → Bool
  isSupported : String → Bool
  duration : Nat
  extract : String → Except String String
  transcribe : String → Except String (List Segment)
  analyze : String → Except String (List Candidate)
  capture : Nat → Except String String
  caption : String → Except String String

/-- The four external-collaborator stages, used to log which collaborators a
`process_task` run actually invoked. -/
inductive StageName where
  | extract
  | transcribe
  | analyze
  | capture
deriving DecidableEq

/-- Monotonically non-decreasing `start` across consecutive segments. -/
def startsMono : List Segment → Bool
  | [] => true
  | [_] => true
  | a :: b :: rest => decide (a.start ≤ b.start) && startsMono (b :: rest)

/-- Every segment satisfies `start ≤ end`. -/
def spansOk : List Segment → Bool
  | [] => true
  | s :: rest => decide (s.start ≤ s.«end») && spansOk rest

/-- Modelled from the spec: stage 2's output contract — ordered segments with
monotonically non-decreasing `start` and `start ≤ end` per segment (§4.3). -/
def segsValid (segs : List Segment) : Bool :=
  startsMono segs && spansOk segs

/-- Candidates ordered by non-decreasing timestamp. -/
def candLE (a b : Candidate) : Prop := a.timestamp ≤ b.timestamp

instance : DecidableRel candLE := fun a b => Nat.decLe a.timestamp b.timestamp

/-- Candidates ordered by strictly increasing timestamp. -/
def candLT (a b : Candidate) : Prop := a.timestamp < b.timestamp

instance : DecidableRel candLT := fun a b => Nat.decLt a.timestamp b.timestamp

/-- Modelled from the spec: stage 3 normalization — out-of-bounds timestamps
(outside the video duration) are filtered, the result is ordered by timestamp
ascending, and duplicate timestamps are filtered, not kept (§4.3). -/
def normalizeCands (d : Nat) (cs : List Candidate) : List Candidate :=
  List.destutter candLT
    (List.insertionSort candLE (cs.filter (fun c => decide (c.timestamp ≤ d))))

/-- Modelled from the spec: the transcript text handed to the analysis provider. -/
def transcriptText (segs : List Segment) : String :=
  String.intercalate " " (segs.map (fun s => s.text))

/-- Outcome of one stage executor: the resulting checkpoint or stage error, the
external collaborators invoked, the stages completed successfully, and the
statuses set while the stage ran. -/
structure StepOut where
  res : Except String Checkpoint
  calls : List StageName
  done : List StageName
  trace : List Status

/-- Modelled from the spec: stage 1, extract audio; skipped when
`audio_path` is already populated (§4.3). -/
def stepExtract (env : Env) (vp : String) (c : Checkpoint) : StepOut :=
  match c.audio_path with
  | some _ => ⟨.ok c, [], [], []⟩
  | none =>
    match env.extract vp with
    | .ok p => ⟨.ok { c with audio_path := some p }, [.extract], [.extract], [.Extracting]⟩
    | .error e => ⟨.error e, [.extract], [], [.Extracting]⟩

/-- Modelled from the spec: stage 2, transcribe; skipped when `transcription`
is already populated; a malformed provider response (unordered segments) is a
`TranscriptionFailed` failure (§4.3). -/
def stepTranscribe (env : Env) (c : Checkpoint) : StepOut :=
  match c.transcription with
  | some _ => ⟨.ok c, [], [], []⟩
  | none =>
    match c.audio_path with
    | none => ⟨.error "missing audio_path", [], [], []⟩
    | some a =>
      match env.transcribe a with
      | .ok segs =>
        if segsValid segs then
          ⟨.ok { c with transcription := some segs }, [.transcribe], [.transcribe],
           [.Transcribing]⟩
        else
          ⟨.error "malformed transcription", [.transcribe], [], [.Transcribing]⟩
      | .error e => ⟨.error e, [.transcribe], [], [.Transcribing]⟩

/-- Modelled from the spec: stage 3, analyze for screenshot moments; skipped
when `screenshot_candidates` is already populated; the provider's candidates
are normalized (sorted ascending, duplicates and out-of-bounds filtered) (§4.3). -/
def stepAnalyze (env : Env) (c : Checkpoint) : StepOut :=
  match c.screenshot_candidates with
  | some _ => ⟨.ok c, [], [], []⟩
  | none =>
    match c.transcription with
    | none => ⟨.error "missing transcription", [], [], []⟩
    | some segs =>
      match env.analyze (transcriptText segs) with
      | .ok cands =>
        ⟨.ok { c with screenshot_candidates := some (normalizeCands env.duration cands) },
         [.analyze], [.analyze], [.Analyzing]⟩
      | .error e => ⟨.error e, [.analyze], [], [.Analyzing]⟩

/-- Modelled from the spec: stage 4 per-candidate loop under the default
skip-and-continue policy (b) — capture then caption each candidate, append each
success to the accumulated screenshots, skip failures and continue (§4.3). -/
def captureLoop (env : Env) (acc : List Screenshot) : List Candidate → List Screenshot
  | [] => acc
  | cand :: rest =>
    match env.capture cand.timestamp with
    | .error _ => captureLoop env acc rest
    | .ok img =>
      match env.caption img with
      | .error _ => captureLoop env acc rest
      | .ok cap =>
        captureLoop env
          (acc ++ [{ timestamp := cand.timestamp, image_reference := img, caption := cap }])
          rest

/-- Modelled from the spec: stage 4, capture + caption; candidates already
reflected in `screenshots` are not reprocessed (partial-completion resume);
under policy (b) the stage never fails the task (§4.3). -/
def stepCapture (env : Env) (c : Checkpoint) :
    Checkpoint × List StageName × List Status :=
  match c.screenshot_candidates with
  | none => (c, [], [])
  | some cands =>
    match cands.drop c.screenshots.length with
    | [] => (c, [], [])
    | todo =>
      ({ c with screenshots := captureLoop env c.screenshots todo },
       [.capture], [.CapturingScreenshots])

/-- Modelled from the spec: the spec-side helper describing one candidate's
capture-and-caption attempt — `some` a screenshot exactly when both the frame
capture and the captioning succeed (§4.3). -/
def shotOf (env : Env) (cand : Candidate) : Option Screenshot :=
  match env.capture cand.timestamp with
  | .error _ => none
  | .ok img =>
    match env.caption img with
    | .error _ => none
    | .ok cap =>
        some { timestamp := cand.timestamp, image_reference := img, caption := cap }

/-- Modelled from the spec: a stage failure persists the durable checkpoint
progress, records the error and sets status = Failed (§4.1, §7). -/
def failTask (t : Task) (c : Checkpoint) (e : String) : Task :=
  { t with checkpoint := c, status := .Failed, error := some e }

/-- Modelled from the spec: a finished run records the aggregated result,
clears the error and sets status = Completed (§3, §4.1). -/
def completeTask (t : Task) (c : Checkpoint) : Task :=
  { t with checkpoint := c, status := .Completed, error := none,
           result := some { transcription := c.transcription.getD [],
                            screenshots := c.screenshots } }

/-- Outcome of one `process_task` run: the updated task, the external
collaborator stages invoked, the stages completed successfully, and the
statuses set, in order. -/
structure RunResult where
  task : Task
  calls : List StageName
  done : List StageName
  trace : List Status

/-- Modelled from the spec: stages 3 and 4 of the run, continuing from
checkpoint `c2` with the calls, completions and statuses accumulated so far. -/
def runStage34 (env : Env) (t : Task) (c2 : Checkpoint)
    (ks ds : List StageName) (tr : List Status) : RunResult :=
  match stepAnalyze env c2 with
  | ⟨.error e, ks3, ds3, tr3⟩ =>
      ⟨failTask t c2 e, ks ++ ks3, ds ++ ds3, tr ++ tr3 ++ [.Failed]⟩
  | ⟨.ok c3, ks3, ds3, tr3⟩ =>
    match stepCapture env c3 with
    | (c4, ks4, tr4) =>
        ⟨completeTask t c4, ks ++ ks3 ++ ks4, ds ++ ds3 ++ ks4,
         tr ++ tr3 ++ tr4 ++ [.Completed]⟩

/-- Modelled from the spec: stages 2 to 4 of the run, continuing from
checkpoint `c1`. -/
def runStage234 (env : Env) (t : Task) (c1 : Checkpoint)
    (ks ds : List StageName) (tr : List Status) : RunResult :=
  match stepTranscribe env c1 with
  | ⟨.error e, ks2, ds2, tr2⟩ =>
      ⟨failTask t c1 e, ks ++ ks2, ds ++ ds2, tr ++ tr2 ++ [.Failed]⟩
  | ⟨.ok c2, ks2, ds2, tr2⟩ => runStage34 env t c2 (ks ++ ks2) (ds ++ ds2) (tr ++ tr2)

/-- Modelled from the spec: the stage-driving core of `process_task` — stages
run in strict order, each skipped when its checkpoint output already exists;
after each stage success the checkpoint is persisted and status advances; on a
stage failure the error is persisted, status = Failed, and no further stage is
attempted (§4.1, §4.3). -/
def runTask (env : Env) (t : Task) : RunResult :=
  match stepExtract env t.video_path t.checkpoint with
  | ⟨.error e, ks1, ds1, tr1⟩ => ⟨failTask t t.checkpoint e, ks1, ds1, tr1 ++ [.Failed]⟩
  | ⟨.ok c1, ks1, ds1, tr1⟩ => runStage234 env t c1 ks1 ds1 tr1

/-- Modelled from the spec: the task store — tasks in creation order, the next
fresh identifier, and the in-memory per-task execution locks (§4.1, §5). -/
structure Manager where
  tasks : List Task
  nextId : Nat
  running : List Nat

/-- Modelled from the spec: `list_tasks()`, tasks in creation order (§4.1). -/
def list_tasks (m : Manager) : List Task := m.tasks

/-- Look up a task by id. -/
def findTask (m : Manager) (id : Nat) : Option Task :=
  m.tasks.find? (fun t => t.id == id)

/-- Replace the task with the given id. -/
def updateTask (ts : List Task) (id : Nat) (t' : Task) : List Task :=
  ts.map (fun t => if t.id == id then t' else t)

/-- Modelled from the spec: `create_task(video_path, config)` — fails with
`InvalidInput` if the video path does not exist or is not a supported format,
otherwise creates a task with status = Pending and an empty checkpoint (§4.1). -/
def create_task (env : Env) (m : Manager) (vp : String) : Except PError Nat × Manager :=
  if env.fileExists vp && env.isSupported vp then
    (.ok m.nextId,
     { m with
       tasks := m.tasks ++ [{ id := m.nextId, video_path := vp, status := .Pending,
                              checkpoint := emptyCheckpoint, error := none, result := none }],
       nextId := m.nextId + 1 })
  else (.error .invalidInput, m)

/-- Modelled from the spec: `process_task(task_id)` — `NotFound` if unknown,
`AlreadyRunning` if a run is in progress for this id, `InvalidState` if
status = Completed; otherwise drives the stages (§4.1). -/
def process_task (env : Env) (m : Manager) (id : Nat) :
    Except PError (List StageName) × Manager :=
  match findTask m id with
  | none => (.error .notFound, m)
  | some t =>
    if id ∈ m.running then (.error .alreadyRunning, m)
    else if t.status = .Completed then (.error .invalidState, m)
    else
      let r := runTask env t
      (.ok r.calls, { m with tasks := updateTask m.tasks id r.task })

/-- Modelled from the spec: `get_task(task_id)` — fails with `NotFound`,
otherwise returns the current snapshot (§4.1). -/
def get_task (m : Manager) (id : Nat) : Except PError Task :=
  match findTask m id with
  | none => .error .notFound
  | some t => .ok t

/-- Modelled from the spec: `remove_task(task_id)` — fails with
`AlreadyRunning` while processing is in progress, else deletes the task (§4.1). -/
def remove_task (m : Manager) (id : Nat) : Except PError Unit × Manager :=
  if id ∈ m.running then (.error .alreadyRunning, m)
  else
    match findTask m id with
    | none => (.error .notFound, m)
    | some _ => (.ok (), { m with tasks := m.tasks.filter (fun t => !(t.id == id)) })

/-- Modelled from the spec: `clear_completed_tasks()` — removes all tasks with
status = Completed (§4.1). -/
def clear_completed_tasks (m : Manager) : Manager :=
  { m with tasks := m.tasks.filter (fun t => !(t.status == .Completed)) }

/-- Modelled from the spec: an environment in which every external collaborator
needed by stages 1 to 3 succeeds (stage 4 collaborators may still fail; under
policy (b) they cannot fail the task). -/
def GoodEnv (env : Env) (vp : String) : Prop :=
  (∃ p, env.extract vp = .ok p) ∧
  (∀ a, ∃ segs, env.transcribe a = .ok segs ∧ segsValid segs = true) ∧
  (∀ txt, ∃ cs0, env.analyze txt = .ok cs0)

/-- Modelled from the spec: `save(task_id, checkpoint)` over the on-disk JSON
document of one task.  The write is atomic with respect to readers: it either
replaces the whole document or fails with `PersistenceError`, leaving the
previous on-disk copy untouched (write-to-temp-then-rename discipline) (§4.2). -/
def save (disk : Option Json) (writeOk : Bool) (c : Checkpoint) :
    Except PError (Option Json) :=
  if writeOk then .ok (some (ckToJson c)) else .error .persistence

/-- Modelled from the spec: `load(task_id)` — the checkpoint deserialized from
the on-disk document, or absent (§4.2). -/
def load (disk : Option Json) : Option Checkpoint :=
  disk.bind ckFromJson

/-- Modelled from the spec: committing one stage's checkpoint — on save success
the checkpoint is recorded and the status advances; on `PersistenceError` the
status is not advanced and the old on-disk document is kept (§4.2, §7). -/
def stageCommit (writeOk : Bool) (disk : Option Json) (t : Task) (cNew : Checkpoint)
    (next : Status) : Option Json × Task :=
  match save disk writeOk cNew with
  | .ok d2 => (d2, { t with checkpoint := cNew, status := next, error := none })
  | .error _ => (disk, { t with error := some "PersistenceError" })

/-- Position of each status along the forward progression
Pending → Extracting → Transcribing → Analyzing → CapturingScreenshots →
Completed, with the terminal statuses last. -/
def statusRank : Status → Nat
  | .Pending => 0
  | .Extracting => 1
  | .Transcribing => 2
  | .Analyzing => 3
  | .CapturingScreenshots => 4
  | .Completed => 5
  | .Failed => 6

/-- Modelled from the spec: the stage 2 and stage 3 output invariants as a
predicate on checkpoints — a populated transcription is ordered with
`start ≤ end` per segment, and populated screenshot candidates are strictly
ascending with every timestamp within the video duration (§4.3, §8). -/
def CheckpointGood (d : Nat) (c : Checkpoint) : Prop :=
  (∀ segs, c.transcription = some segs → segsValid segs = true) ∧
  (∀ cs, c.screenshot_candidates = some cs →
    (List.Chain' candLT cs ∧ ∀ x ∈ cs, x.timestamp ≤ d))

/-- The UI state read by the command layer of `src/main.js`: the selected
video path, the API-key input field, the current task id, and the processing
flag toggled by `setProcessingState`. -/
structure UiState where
  selectedVideoPath : Option String
  apiKey : String
  currentTaskId : Option String
  isProcessing : Bool

/-- The backend command `create_task` as invoked by the UI layer, `.error`
standing for a rejected invoke promise. -/
structure Backend where
  create_task : String → String → Except String String

/-- Embedded from `src/main.js` (`createTask`, lines 117–143): returns null
when no video is selected, when the API-key field is empty, or when the
`create_task` invoke throws; otherwise records the new task id and returns it. -/
def createTask (st : UiState) (b : Backend) : Option String × UiState :=
  match st.selectedVideoPath with
  | none => (none, st)
  | some vp =>
    if st.apiKey = "" then (none, st)
    else
      match b.create_task vp st.apiKey with
      | .ok taskId => (some taskId, { st with currentTaskId := some taskId })
      | .error _ => (none, st)

/-- One `processVideo` invocation: the id passed to the `process_task` invoke
(if it was invoked), whether `setProcessingState(true)` ran, and the final UI
state. -/
structure ProcessVideoRun where
  processTaskArg : Option String
  enteredProcessing : Bool
  finalState : UiState

/-- Embedded from `src/main.js` (`processVideo`, lines 145–166): calls
`createTask`, returns early on a falsy task id (`null` or the empty string),
otherwise enters the processing state, invokes `process_task` with that id,
and leaves the processing state in the `finally` block. -/
def processVideo (st : UiState) (b : Backend) : ProcessVideoRun :=
  match createTask st b with
  | (none, st2) => ⟨none, false, st2⟩
  | (some taskId, st2) =>
    if taskId = "" then ⟨none, false, st2⟩
    else ⟨some taskId, true, { st2 with isProcessing := false }⟩

/-- Concrete environment in which every collaborator succeeds, for evaluating
the theorems on closed inputs. -/
def envW : Env :=
  { fileExists := fun _ => true, isSupported := fun _ => true, duration := 120,
    extract := fun _ => .ok "audio.wav",
    transcribe := fun _ => .ok [{ start := 0, «end» := 2, text := "hello" }],
    analyze := fun _ => .ok [{ timestamp := 1, rationale := "intro" }],
    capture := fun _ => .ok "frame.jpg",
    caption := fun _ => .ok "a slide" }

/-- Concrete environment whose video-path validation rejects every path. -/
def envBad : Env :=
  { envW with fileExists := fun _ => false }

/-- Concrete environment whose frame capture fails at timestamp 1. -/
def envFail : Env :=
  { envW with capture := fun ts => if ts = 1 then .error "capture failed"
                                   else .ok "frame.jpg" }

/-- Concrete checkpoint with only the extraction stage recorded. -/
def ckW : Checkpoint :=
  { audio_path := some "a.wav", transcription := none,
    screenshot_candidates := none, screenshots := [] }

/-- Concrete candidate list for the capture-stage scenarios. -/
def candsW : List Candidate :=
  [{ timestamp := 1, rationale := "intro" }, { timestamp := 3, rationale := "code" }]

/-- Concrete checkpoint with stages 1 to 3 recorded. -/
def ckFull : Checkpoint :=
  { audio_path := some "a.wav",
    transcription := some [{ start := 0, «end» := 2, text := "hello" }],
    screenshot_candidates := some candsW, screenshots := [] }

/-- Concrete pending task holding `ckW`. -/
def taskW : Task :=
  { id := 1, video_path := "v.mp4", status := .Pending, checkpoint := ckW,
    error := none, result := none }

/-- Concrete pending task holding `ckFull`. -/
def taskFull : Task :=
  { id := 3, video_path := "v.mp4", status := .Pending, checkpoint := ckFull,
    error := none, result := none }

/-- Concrete completed task. -/
def taskDone : Task :=
  { id := 4, video_path := "v.mp4", status := .Completed, checkpoint := ckFull,
    error := none, result := none }

/-- Concrete failed task holding the durable progress of `ckW`. -/
def taskFailed : Task :=
  { id := 6, video_path := "v.mp4", status := .Failed, checkpoint := ckW,
    error := some "boom", result := none }

/-- Concrete manager holding `taskW`, with no run in progress. -/
def mgrW : Manager := { tasks := [taskW], nextId := 2, running := [] }

/-- Concrete manager holding `taskW`, with a run in progress for it. -/
def mgrRun : Manager := { tasks := [taskW], nextId := 2, running := [1] }

/-- Concrete manager holding `taskDone`. -/
def mgrDone : Manager := { tasks := [taskDone], nextId := 5, running := [] }

/-- Concrete manager holding `taskFailed`. -/
def mgrFailed : Manager := { tasks := [taskFailed], nextId := 7, running := [] }

/-- Concrete UI state with no video selected. -/
def stNoVideo : UiState :=
  { selectedVideoPath := none, apiKey := "k", currentTaskId := none,
    isProcessing := false }

/-- Concrete backend whose `create_task` invoke succeeds. -/
def backendW : Backend := { create_task := fun _ _ => .ok "t1" }

theorem segFromJson_segToJson (s : Segment) : segFromJson (segToJson s) = some s := by
  cases s
  rfl

theorem candFromJson_candToJson (c : Candidate) : candFromJson (candToJson c) = some c := by
  cases c
  rfl

theorem shotFromJson_shotToJson (s : Screenshot) : shotFromJson (shotToJson s) = some s := by
  cases s
  rfl

theorem parseList_map (p : Json → Option α) (f : α → Json)
    (h : ∀ a, p (f a) = some a) : ∀ l : List α, parseList p (l.map f) = some l := by
  intro l
  induction l with
  | nil => rfl
  | cons a rest ih => simp [parseList, h, ih]

/-- C2: for every Checkpoint value, serializing and then deserializing yields an
identical value, including the order of transcription segments and screenshots. -/
theorem checkpoint_round_trip (c : Checkpoint) : ckFromJson (ckToJson c) = some c := by
  obtain ⟨ap, tr, sc, shots⟩ := c
  cases ap <;> cases tr <;> cases sc <;>
    simp [ckToJson, ckFromJson, parseAudioField, parseTransField, parseCandsField,
      parseList_map segFromJson segToJson segFromJson_segToJson,
      parseList_map candFromJson candToJson candFromJson_candToJson,
      parseList_map shotFromJson shotToJson shotFromJson_shotToJson]

theorem stepExtract_shape (env : Env) (vp : String) (c : Checkpoint) :
    (∃ a, c.audio_path = some a ∧ stepExtract env vp c = ⟨.ok c, [], [], []⟩) ∨
    (c.audio_path = none ∧ ∃ p, env.extract vp = .ok p ∧
      stepExtract env vp c =
        ⟨.ok { c with audio_path := some p }, [.extract], [.extract], [.Extracting]⟩) ∨
    (c.audio_path = none ∧ ∃ e, env.extract vp = .error e ∧
      stepExtract env vp c = ⟨.error e, [.extract], [], [.Extracting]⟩) := by
  cases hap : c.audio_path with
  | some a => exact Or.inl ⟨a, rfl, by simp [stepExtract, hap]⟩
  | none =>
    cases hx : env.extract vp with
    | ok p => exact Or.inr (Or.inl ⟨rfl, p, rfl, by simp [stepExtract, hap, hx]⟩)
    | error e => exact Or.inr (Or.inr ⟨rfl, e, rfl, by simp [stepExtract, hap, hx]⟩)

theorem stepTranscribe_shape (env : Env) (c : Checkpoint) :
    (∃ s, c.transcription = some s ∧ stepTranscribe env c = ⟨.ok c, [], [], []⟩) ∨
    (c.transcription = none ∧ c.audio_path = none ∧
      stepTranscribe env c = ⟨.error "missing audio_path", [], [], []⟩) ∨
    (c.transcription = none ∧ ∃ a segs, c.audio_path = some a ∧
      env.transcribe a = .ok segs ∧ segsValid segs = true ∧
      stepTranscribe env c =
        ⟨.ok { c with transcription := some segs }, [.transcribe], [.transcribe],
         [.Transcribing]⟩) ∨
    (c.transcription = none ∧ ∃ a, c.audio_path = some a ∧
      ((∃ e, env.transcribe a = .error e) ∨
        (∃ segs, env.transcribe a = .ok segs ∧ segsValid segs = false)) ∧ ∃ e,
      stepTranscribe env c = ⟨.error e, [.transcribe], [], [.Transcribing]⟩) := by
  cases ht : c.transcription with
  | some s => exact Or.inl ⟨s, rfl, by simp [stepTranscribe, ht]⟩
  | none =>
    cases hap : c.audio_path with
    | none => exact Or.inr (Or.inl ⟨rfl, rfl, by simp [stepTranscribe, ht, hap]⟩)
    | some a =>
      cases hx : env.transcribe a with
      | ok segs =>
        cases hv : segsValid segs with
        | true =>
          exact Or.inr (Or.inr (Or.inl ⟨rfl, a, segs, rfl, hx, hv,
            by simp [stepTranscribe, ht, hap, hx, hv]⟩))
        | false =>
          exact Or.inr (Or.inr (Or.inr ⟨rfl, a, rfl, Or.inr ⟨segs, hx, hv⟩,
            "malformed transcription", by simp [stepTranscribe, ht, hap, hx, hv]⟩))
      | error e =>
        exact Or.inr (Or.inr (Or.inr ⟨rfl, a, rfl, Or.inl ⟨e, hx⟩, e,
          by simp [stepTranscribe, ht, hap, hx]⟩))

theorem stepAnalyze_shape (env : Env) (c : Checkpoint) :
    (∃ cs, c.screenshot_candidates = some cs ∧ stepAnalyze env c = ⟨.ok c, [], [], []⟩) ∨
    (c.screenshot_candidates = none ∧ c.transcription = none ∧
      stepAnalyze env c = ⟨.error "missing transcription", [], [], []⟩) ∨
    (c.screenshot_candidates = none ∧ c.transcription.isSome = true ∧ ∃ cands,
      stepAnalyze env c =
        ⟨.ok { c with screenshot_candidates := some (normalizeCands env.duration cands) },
         [.analyze], [.analyze], [.Analyzing]⟩) ∨
    (c.screenshot_candidates = none ∧ ∃ segs, c.transcription = some segs ∧
      ∃ e, env.analyze (transcriptText segs) = .error e ∧
      stepAnalyze env c = ⟨.error e, [.analyze], [], [.Analyzing]⟩) := by
  cases hc : c.screenshot_candidates with
  | some cs => exact Or.inl ⟨cs, rfl, by simp [stepAnalyze, hc]⟩
  | none =>
    cases ht : c.transcription with
    | none => exact Or.inr (Or.inl ⟨rfl, rfl, by simp [stepAnalyze, hc, ht]⟩)
    | some segs =>
      cases hx : env.analyze (transcriptText segs) with
      | ok cands =>
        exact Or.inr (Or.inr (Or.inl ⟨rfl, by simp [ht], cands,
          by simp [stepAnalyze, hc, ht, hx]⟩))
      | error e =>
        exact Or.inr (Or.inr (Or.inr ⟨rfl, segs, rfl, e, hx,
          by simp [stepAnalyze, hc, ht, hx]⟩))

theorem stepCapture_shape (env : Env) (c : Checkpoint) :
    (stepCapture env c = (c, [], []) ∧
      (c.screenshot_candidates = none ∨
        ∃ cands, c.screenshot_candidates = some cands ∧
          cands.drop c.screenshots.length = [])) ∨
    (∃ cands todo, c.screenshot_candidates = some cands ∧
      cands.drop c.screenshots.length = todo ∧ todo ≠ [] ∧
      stepCapture env c =
        ({ c with screenshots := captureLoop env c.screenshots todo },
         [.capture], [.CapturingScreenshots])) := by
  cases hc : c.screenshot_candidates with
  | none => exact Or.inl ⟨by simp [stepCapture, hc], Or.inl rfl⟩
  | some cands =>
    cases hd : cands.drop c.screenshots.length with
    | nil => exact Or.inl ⟨by simp [stepCapture, hc, hd], Or.inr ⟨cands, rfl, hd⟩⟩
    | cons x rest =>
      exact Or.inr ⟨cands, x :: rest, rfl, hd, by simp, by simp [stepCapture, hc, hd]⟩

theorem captureLoop_eq_append (env : Env) (todo : List Candidate) :
    ∀ acc, captureLoop env acc todo = acc ++ captureLoop env [] todo := by
  induction todo with
  | nil => intro acc; simp [captureLoop]
  | cons cand rest ih =>
    intro acc
    cases hc : env.capture cand.timestamp with
    | error e =>
      simp only [captureLoop, hc]
      exact ih acc
    | ok img =>
      cases hk : env.caption img with
      | error e =>
        simp only [captureLoop, hc, hk]
        exact ih acc
      | ok cap =>
        simp only [captureLoop, hc, hk]
        rw [ih, ih ([] ++ [_])]
        simp

theorem captureLoop_nil_eq_filterMap (env : Env) (todo : List Candidate) :
    captureLoop env [] todo = todo.filterMap (shotOf env) := by
  induction todo with
  | nil => simp [captureLoop]
  | cons cand rest ih =>
    cases hc : env.capture cand.timestamp with
    | error e =>
      simp only [captureLoop, hc]
      rw [ih]
      simp [List.filterMap_cons, shotOf, hc]
    | ok img =>
      cases hk : env.caption img with
      | error e =>
        simp only [captureLoop, hc, hk]
        rw [ih]
        simp [List.filterMap_cons, shotOf, hc, hk]
      | ok cap =>
        simp only [captureLoop, hc, hk]
        rw [captureLoop_eq_append, ih]
        simp [List.filterMap_cons, shotOf, hc, hk]

theorem captureLoop_prefix (env : Env) (acc : List Screenshot) (todo : List Candidate) :
    acc <+: captureLoop env acc todo := by
  rw [captureLoop_eq_append]
  exact List.prefix_append acc _

theorem captureLoop_length (env : Env) (acc : List Screenshot) (todo : List Candidate) :
    (captureLoop env acc todo).length ≤ acc.length + todo.length := by
  rw [captureLoop_eq_append, captureLoop_nil_eq_filterMap]
  simp only [List.length_append]
  exact Nat.add_le_add_left (List.length_filterMap_le _ _) _

theorem normalizeCands_chain (d : Nat) (cs : List Candidate) :
    List.Chain' candLT (normalizeCands d cs) :=
  List.destutter_is_chain' candLT _

theorem normalizeCands_le (d : Nat) (cs : List Candidate) :
    ∀ x ∈ normalizeCands d cs, x.timestamp ≤ d := by
  intro x hx
  have h1 : x ∈ List.insertionSort candLE (cs.filter (fun c => decide (c.timestamp ≤ d))) :=
    (List.destutter_sublist candLT _).mem hx
  have h2 : x ∈ cs.filter (fun c => decide (c.timestamp ≤ d)) :=
    (List.perm_insertionSort candLE _).mem_iff.mp h1
  simpa using (List.mem_filter.mp h2).2

theorem stepCapture_fields (env : Env) (c : Checkpoint) :
    (stepCapture env c).1.audio_path = c.audio_path ∧
    (stepCapture env c).1.transcription = c.transcription ∧
    (stepCapture env c).1.screenshot_candidates = c.screenshot_candidates ∧
    c.screenshots <+: (stepCapture env c).1.screenshots := by
  rcases stepCapture_shape env c with ⟨h, _⟩ | ⟨cands, todo, hc, hd, hne, h⟩
  · simp [h]
  · refine ⟨by simp [h], by simp [h], by simp [h], ?_⟩
    simp only [h]
    exact captureLoop_prefix env _ _

theorem stepCapture_length (env : Env) (c : Checkpoint) (l : List Candidate)
    (hc : c.screenshot_candidates = some l) (hlen : c.screenshots.length ≤ l.length) :
    (stepCapture env c).1.screenshots.length ≤ l.length := by
  rcases stepCapture_shape env c with ⟨h, _⟩ | ⟨cands, todo, hcc, hd, hne, h⟩
  · rw [h]
    exact hlen
  · have hcl : cands = l := by
      rw [hc] at hcc
      exact (Option.some_injective _ hcc).symm
    subst hcl
    rw [h]
    simp only
    have h1 : (captureLoop env c.screenshots todo).length ≤
        c.screenshots.length + todo.length := captureLoop_length env _ _
    have h2 : todo.length = cands.length - c.screenshots.length := by
      rw [← hd, List.length_drop]
    omega

theorem runStage34_checkpoint (env : Env) (t : Task) (c2 : Checkpoint)
    (ks ds : List StageName) (tr : List Status) :
    (runStage34 env t c2 ks ds tr).task.checkpoint.audio_path = c2.audio_path ∧
    (runStage34 env t c2 ks ds tr).task.checkpoint.transcription = c2.transcription ∧
    (∀ cs, c2.screenshot_candidates = some cs →
      (runStage34 env t c2 ks ds tr).task.checkpoint.screenshot_candidates = some cs) ∧
    c2.screenshots <+: (runStage34 env t c2 ks ds tr).task.checkpoint.screenshots ∧
    (∀ cs, (runStage34 env t c2 ks ds tr).task.checkpoint.screenshot_candidates = some cs →
      (c2.screenshot_candidates = some cs ∨
        ∃ cands0, cs = normalizeCands env.duration cands0)) ∧
    (∀ l, c2.screenshot_candidates = some l → c2.screenshots.length ≤ l.length →
      (runStage34 env t c2 ks ds tr).task.checkpoint.screenshots.length ≤ l.length) := by
  rcases stepAnalyze_shape env c2 with ⟨cs, hc, hA⟩ | ⟨hc, ht, hA⟩ |
    ⟨hc, ht, cands, hA⟩ | ⟨hc, segs, ht, e, hx, hA⟩
  · obtain ⟨h1, h2, h3, h4⟩ := stepCapture_fields env c2
    have hlen := stepCapture_length env c2
    rcases hC : stepCapture env c2 with ⟨c4, ks4, tr4⟩
    rw [hC] at h1 h2 h3 h4 hlen
    simp only [runStage34, hA, hC, completeTask]
    refine ⟨h1, h2, ?_, h4, ?_, ?_⟩
    · intro cs2 hcs2
      rw [h3, hcs2]
    · intro cs2 hcs2
      rw [h3] at hcs2
      exact Or.inl hcs2
    · intro l hl h
      exact hlen l hl h
  · simp [runStage34, hA, failTask, hc]
  · obtain ⟨h1, h2, h3, h4⟩ :=
      stepCapture_fields env
        { c2 with screenshot_candidates := some (normalizeCands env.duration cands) }
    rcases hC : stepCapture env
        { c2 with screenshot_candidates := some (normalizeCands env.duration cands) }
      with ⟨c4, ks4, tr4⟩
    rw [hC] at h1 h2 h3 h4
    simp only at h1 h2 h3 h4
    simp only [runStage34, hA, hC, completeTask]
    refine ⟨h1, h2, ?_, h4, ?_, ?_⟩
    · intro cs2 hcs2
      rw [hc] at hcs2
      cases hcs2
    · intro cs2 hcs2
      rw [h3] at hcs2
      exact Or.inr ⟨cands, (Option.some_injective _ hcs2).symm⟩
    · intro l hl
      rw [hc] at hl
      cases hl
  · simp [runStage34, hA, failTask, hc]

theorem runStage34_calls (env : Env) (t : Task) (c2 : Checkpoint)
    (ks ds : List StageName) (tr : List Status) :
    ∃ ks2 ds2,
      (runStage34 env t c2 ks ds tr).calls = ks ++ ks2 ∧
      (runStage34 env t c2 ks ds tr).done = ds ++ ds2 ∧
      (∀ x ∈ ks2, x = StageName.analyze ∨ x = StageName.capture) ∧
      ds2 ⊆ ks2 ∧
      (c2.screenshot_candidates.isSome = true → StageName.analyze ∉ ks2) ∧
      ((runStage34 env t c2 ks ds tr).task.checkpoint.screenshot_candidates.isSome = true ↔
        (c2.screenshot_candidates.isSome = true ∨ StageName.analyze ∈ ds2)) := by
  rcases stepAnalyze_shape env c2 with ⟨cs, hc, hA⟩ | ⟨hc, ht, hA⟩ |
    ⟨hc, ht, cands, hA⟩ | ⟨hc, segs, ht, e, hx, hA⟩
  · obtain ⟨_, _, h3, _⟩ := stepCapture_fields env c2
    rcases stepCapture_shape env c2 with ⟨hC, _⟩ | ⟨cands2, todo, hcc, hd, hne, hC⟩
    · refine ⟨[], [], ?_, ?_, by simp, by simp, by simp, ?_⟩ <;>
        simp [runStage34, hA, hC, completeTask, hc]
    · refine ⟨[.capture], [.capture], ?_, ?_, by simp, by simp, by simp, ?_⟩ <;>
        simp [runStage34, hA, hC, completeTask, hc]
  · refine ⟨[], [], ?_, ?_, by simp, by simp, by simp, ?_⟩ <;>
      simp [runStage34, hA, failTask, hc]
  · obtain ⟨_, _, h3, _⟩ := stepCapture_fields env
      { c2 with screenshot_candidates := some (normalizeCands env.duration cands) }
    rcases hC : stepCapture env
        { c2 with screenshot_candidates := some (normalizeCands env.duration cands) }
      with ⟨c4, ks4, tr4⟩
    rw [hC] at h3
    simp only at h3
    rcases stepCapture_shape env
        { c2 with screenshot_candidates := some (normalizeCands env.duration cands) }
      with ⟨hCe, _⟩ | ⟨cands2, todo, hcc, hd, hne, hCe⟩ <;> rw [hCe] at hC <;> cases hC
    · refine ⟨[.analyze], [.analyze], ?_, ?_, by simp, by simp, by simp [hc], ?_⟩ <;>
        simp [runStage34, hA, hCe, completeTask, hc]
    · refine ⟨[.analyze, .capture], [.analyze, .capture], ?_, ?_, ?_, by simp,
        by simp [hc], ?_⟩ <;>
        simp [runStage34, hA, hCe, completeTask, hc]
  · refine ⟨[.analyze], [], ?_, ?_, by simp, by simp, by simp [hc], ?_⟩ <;>
      simp [runStage34, hA, failTask, hc]

theorem runStage34_status (env : Env) (t : Task) (c2 : Checkpoint)
    (ks ds : List StageName) (tr : List Status) :
    ((runStage34 env t c2 ks ds tr).task.status = .Completed ∨
      ((runStage34 env t c2 ks ds tr).task.status = .Failed ∧
        ((runStage34 env t c2 ks ds tr).task.error.isSome = true))) ∧
    ((c2.screenshot_candidates.isSome = true ∨
        (c2.transcription.isSome = true ∧ ∀ txt, ∃ cs0, env.analyze txt = .ok cs0)) →
      (runStage34 env t c2 ks ds tr).task.status = .Completed) := by
  rcases stepAnalyze_shape env c2 with ⟨cs, hc, hA⟩ | ⟨hc, ht, hA⟩ |
    ⟨hc, ht, cands, hA⟩ | ⟨hc, segs, ht, e, hx, hA⟩
  · rcases hC : stepCapture env c2 with ⟨c4, ks4, tr4⟩
    simp [runStage34, hA, hC, completeTask]
  · simp only [runStage34, hA, failTask]
    refine ⟨Or.inr ⟨by simp, by simp⟩, ?_⟩
    rintro (h | ⟨h, _⟩)
    · rw [hc] at h
      simp at h
    · rw [ht] at h
      simp at h
  · rcases hC : stepCapture env
        { c2 with screenshot_candidates := some (normalizeCands env.duration cands) }
      with ⟨c4, ks4, tr4⟩
    simp [runStage34, hA, hC, completeTask]
  · simp only [runStage34, hA, failTask]
    refine ⟨Or.inr ⟨by simp, by simp⟩, ?_⟩
    rintro (h | ⟨_, hgood⟩)
    · rw [hc] at h
      simp at h
    · obtain ⟨cs0, hcs0⟩ := hgood (transcriptText segs)
      rw [hx] at hcs0
      cases hcs0

theorem runStage34_trace (env : Env) (t : Task) (c2 : Checkpoint)
    (ks ds : List StageName) (tr : List Status) :
    ∃ tr2,
      (tr2 = [] ∨ tr2 = [Status.Analyzing] ∨ tr2 = [Status.CapturingScreenshots] ∨
        tr2 = [Status.Analyzing, Status.CapturingScreenshots]) ∧
      ((runStage34 env t c2 ks ds tr).trace = tr ++ tr2 ++ [Status.Completed] ∨
        (runStage34 env t c2 ks ds tr).trace = tr ++ tr2 ++ [Status.Failed]) := by
  rcases stepAnalyze_shape env c2 with ⟨cs, hc, hA⟩ | ⟨hc, ht, hA⟩ |
    ⟨hc, ht, cands, hA⟩ | ⟨hc, segs, ht, e, hx, hA⟩
  · rcases stepCapture_shape env c2 with ⟨hC, _⟩ | ⟨cands2, todo, hcc, hd, hne, hC⟩
    · exact ⟨[], Or.inl rfl, Or.inl (by simp [runStage34, hA, hC])⟩
    · exact ⟨[Status.CapturingScreenshots], Or.inr (Or.inr (Or.inl rfl)),
        Or.inl (by simp [runStage34, hA, hC])⟩
  · exact ⟨[], Or.inl rfl, Or.inr (by simp [runStage34, hA])⟩
  · rcases stepCapture_shape env
        { c2 with screenshot_candidates := some (normalizeCands env.duration cands) }
      with ⟨hC, _⟩ | ⟨cands2, todo, hcc, hd, hne, hC⟩
    · exact ⟨[Status.Analyzing], Or.inr (Or.inl rfl),
        Or.inl (by simp [runStage34, hA, hC])⟩
    · exact ⟨[Status.Analyzing, Status.CapturingScreenshots],
        Or.inr (Or.inr (Or.inr rfl)), Or.inl (by simp [runStage34, hA, hC])⟩
  · exact ⟨[Status.Analyzing], Or.inr (Or.inl rfl),
      Or.inr (by simp [runStage34, hA])⟩

theorem runStage234_checkpoint (env : Env) (t : Task) (c1 : Checkpoint)
    (ks ds : List StageName) (tr : List Status) :
    (runStage234 env t c1 ks ds tr).task.checkpoint.audio_path = c1.audio_path ∧
    (∀ s, c1.transcription = some s →
      (runStage234 env t c1 ks ds tr).task.checkpoint.transcription = some s) ∧
    (∀ cs, c1.screenshot_candidates = some cs →
      (runStage234 env t c1 ks ds tr).task.checkpoint.screenshot_candidates = some cs) ∧
    c1.screenshots <+: (runStage234 env t c1 ks ds tr).task.checkpoint.screenshots ∧
    (∀ segs, (runStage234 env t c1 ks ds tr).task.checkpoint.transcription = some segs →
      (c1.transcription = some segs ∨ segsValid segs = true)) ∧
    (∀ cs, (runStage234 env t c1 ks ds tr).task.checkpoint.screenshot_candidates = some cs →
      (c1.screenshot_candidates = some cs ∨
        ∃ cands0, cs = normalizeCands env.duration cands0)) ∧
    (∀ l, c1.screenshot_candidates = some l → c1.screenshots.length ≤ l.length →
      (runStage234 env t c1 ks ds tr).task.checkpoint.screenshots.length ≤ l.length) := by
  rcases stepTranscribe_shape env c1 with ⟨s0, ht, hT⟩ | ⟨ht, hap, hT⟩ |
    ⟨ht, a, segs, hap, hx, hv, hT⟩ | ⟨ht, a, hap, hbad, e, hT⟩
  · obtain ⟨g1, g2, g3, g4, g5, g6⟩ := runStage34_checkpoint env t c1 (ks ++ []) (ds ++ []) (tr ++ [])
    simp only [runStage234, hT]
    refine ⟨g1, ?_, g3, g4, ?_, g5, g6⟩
    · intro s hs
      rw [g2, hs]
    · intro segs2 hsegs2
      rw [g2] at hsegs2
      exact Or.inl hsegs2
  · simp only [runStage234, hT, failTask]
    simp
    exact ⟨fun _ h => Or.inl h, fun _ h => Or.inl h⟩
  · obtain ⟨g1, g2, g3, g4, g5, g6⟩ := runStage34_checkpoint env t
      { c1 with transcription := some segs } (ks ++ [.transcribe]) (ds ++ [.transcribe])
      (tr ++ [.Transcribing])
    simp only [runStage234, hT]
    simp only at g1 g2 g3 g4 g5 g6
    refine ⟨g1, ?_, g3, g4, ?_, ?_, g6⟩
    · intro s hs
      rw [ht] at hs
      cases hs
    · intro segs2 hsegs2
      rw [g2] at hsegs2
      exact Or.inr ((Option.some_injective _ hsegs2.symm) ▸ hv)
    · intro cs hcs
      exact g5 cs hcs
  · simp only [runStage234, hT, failTask]
    simp
    exact ⟨fun _ h => Or.inl h, fun _ h => Or.inl h⟩

theorem runStage234_calls (env : Env) (t : Task) (c1 : Checkpoint)
    (ks ds : List StageName) (tr : List Status) :
    ∃ ks2 ds2,
      (runStage234 env t c1 ks ds tr).calls = ks ++ ks2 ∧
      (runStage234 env t c1 ks ds tr).done = ds ++ ds2 ∧
      (∀ x ∈ ks2, x = StageName.transcribe ∨ x = StageName.analyze ∨
        x = StageName.capture) ∧
      ds2 ⊆ ks2 ∧
      (c1.transcription.isSome = true → StageName.transcribe ∉ ks2) ∧
      (c1.screenshot_candidates.isSome = true → StageName.analyze ∉ ks2) ∧
      ((runStage234 env t c1 ks ds tr).task.checkpoint.transcription.isSome = true ↔
        (c1.transcription.isSome = true ∨ StageName.transcribe ∈ ds2)) ∧
      ((runStage234 env t c1 ks ds tr).task.checkpoint.screenshot_candidates.isSome = true ↔
        (c1.screenshot_candidates.isSome = true ∨ StageName.analyze ∈ ds2)) := by
  rcases stepTranscribe_shape env c1 with ⟨s0, ht, hT⟩ | ⟨ht, hap, hT⟩ |
    ⟨ht, a, segs, hap, hx, hv, hT⟩ | ⟨ht, a, hap, hbad, e, hT⟩
  · obtain ⟨ks2, ds2, g1, g2, g3, g4, g5, g6⟩ :=
      runStage34_calls env t c1 (ks ++ []) (ds ++ []) (tr ++ [])
    obtain ⟨f1, f2, _⟩ := runStage34_checkpoint env t c1 (ks ++ []) (ds ++ []) (tr ++ [])
    refine ⟨ks2, ds2, ?_, ?_, ?_, g4, ?_, ?_, ?_, ?_⟩
    · simp only [runStage234, hT]
      simpa using g1
    · simp only [runStage234, hT]
      simpa using g2
    · intro x hx2
      exact Or.inr (g3 x hx2)
    · intro _ hmem
      rcases g3 _ hmem with h | h <;> cases h
    · intro hsome
      exact g5 hsome
    · simp only [runStage234, hT]
      rw [f2, ht]
      constructor
      · intro h
        exact Or.inl h
      · rintro (h | h)
        · exact h
        · rcases g3 _ (g4 h) with h2 | h2 <;> cases h2
    · simp only [runStage234, hT]
      exact g6
  · refine ⟨[], [], ?_, ?_, by simp, by simp, by simp, by simp, ?_, ?_⟩ <;>
      simp [runStage234, hT, failTask, ht]
  · obtain ⟨ks2, ds2, g1, g2, g3, g4, g5, g6⟩ :=
      runStage34_calls env t { c1 with transcription := some segs }
        (ks ++ [.transcribe]) (ds ++ [.transcribe]) (tr ++ [.Transcribing])
    obtain ⟨f1, f2, _⟩ := runStage34_checkpoint env t { c1 with transcription := some segs }
      (ks ++ [.transcribe]) (ds ++ [.transcribe]) (tr ++ [.Transcribing])
    simp only at g5 g6 f2
    refine ⟨.transcribe :: ks2, .transcribe :: ds2, ?_, ?_, ?_, ?_, ?_, ?_, ?_, ?_⟩
    · simp only [runStage234, hT]
      rw [g1]
      simp
    · simp only [runStage234, hT]
      rw [g2]
      simp
    · intro x hx2
      rcases List.mem_cons.mp hx2 with h | h
      · exact Or.inl h
      · exact Or.inr (g3 x h)
    · intro x hx2
      rcases List.mem_cons.mp hx2 with h | h
      · exact List.mem_cons.mpr (Or.inl h)
      · exact List.mem_cons.mpr (Or.inr (g4 h))
    · intro hsome
      rw [ht] at hsome
      cases hsome
    · intro hsome
      intro hmem
      rcases List.mem_cons.mp hmem with h | h
      · cases h
      · exact g5 (by simpa using hsome) h
    · simp only [runStage234, hT]
      rw [f2]
      simp
    · simp only [runStage234, hT]
      rw [g6]
      constructor
      · rintro (h | h)
        · exact Or.inl (by simpa using h)
        · exact Or.inr (List.mem_cons.mpr (Or.inr h))
      · rintro (h | h)
        · exact Or.inl (by simpa using h)
        · rcases List.mem_cons.mp h with h2 | h2
          · cases h2
          · exact Or.inr h2
  · refine ⟨[.transcribe], [], ?_, ?_, by simp, by simp, ?_, by simp, ?_, ?_⟩ <;>
      simp [runStage234, hT, failTask, ht]

theorem runStage234_status (env : Env) (t : Task) (c1 : Checkpoint)
    (ks ds : List StageName) (tr : List Status) :
    ((runStage234 env t c1 ks ds tr).task.status = .Completed ∨
      ((runStage234 env t c1 ks ds tr).task.status = .Failed ∧
        (runStage234 env t c1 ks ds tr).task.error.isSome = true)) ∧
    (((∀ a, ∃ segs, env.transcribe a = .ok segs ∧ segsValid segs = true) ∧
      (∀ txt, ∃ cs0, env.analyze txt = .ok cs0) ∧
      c1.audio_path.isSome = true) →
      (runStage234 env t c1 ks ds tr).task.status = .Completed) ∧
    ((c1.transcription.isSome = true ∧ c1.screenshot_candidates.isSome = true) →
      (runStage234 env t c1 ks ds tr).task.status = .Completed) := by
  rcases stepTranscribe_shape env c1 with ⟨s0, ht, hT⟩ | ⟨ht, hap, hT⟩ |
    ⟨ht, a, segs, hap, hx, hv, hT⟩ | ⟨ht, a, hap, hbad, e, hT⟩
  · obtain ⟨g1, g2⟩ := runStage34_status env t c1 (ks ++ []) (ds ++ []) (tr ++ [])
    simp only [runStage234, hT]
    refine ⟨g1, ?_, ?_⟩
    · rintro ⟨_, hga, _⟩
      exact g2 (Or.inr ⟨by simp [ht], hga⟩)
    · rintro ⟨_, hcs⟩
      exact g2 (Or.inl hcs)
  · simp only [runStage234, hT, failTask]
    refine ⟨Or.inr ⟨by simp, by simp⟩, ?_, ?_⟩
    · rintro ⟨_, _, hsome⟩
      rw [hap] at hsome
      cases hsome
    · rintro ⟨hsome, _⟩
      rw [ht] at hsome
      cases hsome
  · obtain ⟨g1, g2⟩ := runStage34_status env t { c1 with transcription := some segs }
      (ks ++ [.transcribe]) (ds ++ [.transcribe]) (tr ++ [.Transcribing])
    simp only [runStage234, hT]
    refine ⟨g1, ?_, ?_⟩
    · rintro ⟨_, hga, _⟩
      exact g2 (Or.inr ⟨by simp, hga⟩)
    · rintro ⟨hsome, _⟩
      rw [ht] at hsome
      cases hsome
  · simp only [runStage234, hT, failTask]
    refine ⟨Or.inr ⟨by simp, by simp⟩, ?_, ?_⟩
    · rintro ⟨hgt, _, _⟩
      obtain ⟨segs, hok, hval⟩ := hgt a
      rcases hbad with ⟨e2, he2⟩ | ⟨segs2, hok2, hval2⟩
      · rw [hok] at he2
        cases he2
      · rw [hok] at hok2
        have hss : segs = segs2 := by
          cases hok2
          rfl
        rw [← hss] at hval2
        rw [hval] at hval2
        cases hval2
    · rintro ⟨hsome, _⟩
      rw [ht] at hsome
      cases hsome

theorem runStage234_trace (env : Env) (t : Task) (c1 : Checkpoint)
    (ks ds : List StageName) (tr : List Status) :
    ∃ tr2,
      List.Sublist tr2 [Status.Transcribing, Status.Analyzing, Status.CapturingScreenshots] ∧
      ((runStage234 env t c1 ks ds tr).trace = tr ++ tr2 ++ [Status.Completed] ∨
        (runStage234 env t c1 ks ds tr).trace = tr ++ tr2 ++ [Status.Failed]) := by
  rcases stepTranscribe_shape env c1 with ⟨s0, ht, hT⟩ | ⟨ht, hap, hT⟩ |
    ⟨ht, a, segs, hap, hx, hv, hT⟩ | ⟨ht, a, hap, hbad, e, hT⟩
  · obtain ⟨tr2, henum, hfin⟩ := runStage34_trace env t c1 (ks ++ []) (ds ++ []) (tr ++ [])
    refine ⟨tr2, ?_, ?_⟩
    · rcases henum with h | h | h | h <;> rw [h] <;> decide
    · simp only [runStage234, hT]
      rcases hfin with h | h
      · exact Or.inl (by rw [h]; simp)
      · exact Or.inr (by rw [h]; simp)
  · exact ⟨[], by decide, Or.inr (by simp [runStage234, hT])⟩
  · obtain ⟨tr2, henum, hfin⟩ := runStage34_trace env t { c1 with transcription := some segs }
      (ks ++ [.transcribe]) (ds ++ [.transcribe]) (tr ++ [.Transcribing])
    refine ⟨.Transcribing :: tr2, ?_, ?_⟩
    · rcases henum with h | h | h | h <;> rw [h] <;> decide
    · simp only [runStage234, hT]
      rcases hfin with h | h
      · exact Or.inl (by rw [h]; simp)
      · exact Or.inr (by rw [h]; simp)
  · exact ⟨[.Transcribing], by decide, Or.inr (by simp [runStage234, hT])⟩


theorem runTask_checkpoint (env : Env) (t : Task) :
    (∀ a, t.checkpoint.audio_path = some a →
      (runTask env t).task.checkpoint.audio_path = some a) ∧
    (∀ s, t.checkpoint.transcription = some s →
      (runTask env t).task.checkpoint.transcription = some s) ∧
    (∀ cs, t.checkpoint.screenshot_candidates = some cs →
      (runTask env t).task.checkpoint.screenshot_candidates = some cs) ∧
    t.checkpoint.screenshots <+: (runTask env t).task.checkpoint.screenshots ∧
    (∀ segs, (runTask env t).task.checkpoint.transcription = some segs →
      (t.checkpoint.transcription = some segs ∨ segsValid segs = true)) ∧
    (∀ cs, (runTask env t).task.checkpoint.screenshot_candidates = some cs →
      (t.checkpoint.screenshot_candidates = some cs ∨
        ∃ cands0, cs = normalizeCands env.duration cands0)) ∧
    (∀ l, t.checkpoint.screenshot_candidates = some l →
      t.checkpoint.screenshots.length ≤ l.length →
      (runTask env t).task.checkpoint.screenshots.length ≤ l.length) := by
  rcases stepExtract_shape env t.video_path t.checkpoint with ⟨a0, hap, hE⟩ |
    ⟨hap, p, hxp, hE⟩ | ⟨hap, e, hxe, hE⟩
  · obtain ⟨g1, g2, g3, g4, g5, g6, g7⟩ :=
      runStage234_checkpoint env t t.checkpoint [] [] []
    simp only [runTask, hE]
    exact ⟨fun a ha => by rw [g1, ha], g2, g3, g4, g5, g6, g7⟩
  · obtain ⟨g1, g2, g3, g4, g5, g6, g7⟩ :=
      runStage234_checkpoint env t { t.checkpoint with audio_path := some p }
        [.extract] [.extract] [.Extracting]
    simp only at g1 g2 g3 g4 g5 g6 g7
    simp only [runTask, hE]
    refine ⟨?_, g2, g3, g4, ?_, ?_, g7⟩
    · intro a ha
      rw [hap] at ha
      cases ha
    · intro segs hsegs
      exact g5 segs hsegs
    · intro cs hcs
      exact g6 cs hcs
  · simp only [runTask, hE, failTask]
    simp
    exact ⟨fun _ h => Or.inl h, fun _ h => Or.inl h⟩

theorem runTask_calls (env : Env) (t : Task) :
    (t.checkpoint.audio_path.isSome = true →
      StageName.extract ∉ (runTask env t).calls) ∧
    (t.checkpoint.transcription.isSome = true →
      StageName.transcribe ∉ (runTask env t).calls) ∧
    (t.checkpoint.screenshot_candidates.isSome = true →
      StageName.analyze ∉ (runTask env t).calls) ∧
    (runTask env t).done ⊆ (runTask env t).calls ∧
    ((runTask env t).task.checkpoint.audio_path.isSome = true ↔
      (t.checkpoint.audio_path.isSome = true ∨ StageName.extract ∈ (runTask env t).done)) ∧
    ((runTask env t).task.checkpoint.transcription.isSome = true ↔
      (t.checkpoint.transcription.isSome = true ∨
        StageName.transcribe ∈ (runTask env t).done)) ∧
    ((runTask env t).task.checkpoint.screenshot_candidates.isSome = true ↔
      (t.checkpoint.screenshot_candidates.isSome = true ∨
        StageName.analyze ∈ (runTask env t).done)) := by
  rcases stepExtract_shape env t.video_path t.checkpoint with ⟨a0, hap, hE⟩ |
    ⟨hap, p, hxp, hE⟩ | ⟨hap, e, hxe, hE⟩
  · obtain ⟨ks2, ds2, g1, g2, g3, g4, g5, g6, g7, g8⟩ :=
      runStage234_calls env t t.checkpoint [] [] []
    obtain ⟨f1, _⟩ := runStage234_checkpoint env t t.checkpoint [] [] []
    simp only [runTask, hE]
    rw [g1, g2]
    simp only [List.nil_append]
    refine ⟨?_, ?_, ?_, ?_, ?_, g7, g8⟩
    · intro _ hmem
      rcases g3 _ hmem with h | h | h <;> cases h
    · intro hsome hmem
      exact g5 hsome hmem
    · intro hsome hmem
      exact g6 hsome hmem
    · exact g4
    · rw [f1, hap]
      simp
  · obtain ⟨ks2, ds2, g1, g2, g3, g4, g5, g6, g7, g8⟩ :=
      runStage234_calls env t { t.checkpoint with audio_path := some p }
        [.extract] [.extract] [.Extracting]
    obtain ⟨f1, _⟩ := runStage234_checkpoint env t
      { t.checkpoint with audio_path := some p } [.extract] [.extract] [.Extracting]
    simp only at g5 g6 g7 g8 f1
    simp only [runTask, hE]
    rw [g1, g2]
    refine ⟨?_, ?_, ?_, ?_, ?_, ?_, ?_⟩
    · intro hsome
      rw [hap] at hsome
      cases hsome
    · intro hsome
      simp only [List.cons_append, List.nil_append, List.mem_cons]
      rintro (h | hmem)
      · cases h
      · exact g5 hsome hmem
    · intro hsome
      simp only [List.cons_append, List.nil_append, List.mem_cons]
      rintro (h | hmem)
      · cases h
      · exact g6 hsome hmem
    · intro x hmem
      simp only [List.cons_append, List.nil_append, List.mem_cons] at hmem ⊢
      rcases hmem with h | h
      · exact Or.inl h
      · exact Or.inr (g4 h)
    · rw [f1]
      simp
    · rw [g7]
      constructor
      · rintro (h | h)
        · exact Or.inl h
        · exact Or.inr (List.mem_append.mpr (Or.inr h))
      · rintro (h | h)
        · exact Or.inl h
        · exact Or.inr (by simpa using h)
    · rw [g8]
      constructor
      · rintro (h | h)
        · exact Or.inl h
        · exact Or.inr (List.mem_append.mpr (Or.inr h))
      · rintro (h | h)
        · exact Or.inl h
        · exact Or.inr (by simpa using h)
  · simp only [runTask, hE, failTask]
    refine ⟨?_, ?_, ?_, ?_, ?_, ?_, ?_⟩ <;> simp [hap]

theorem runTask_status (env : Env) (t : Task) :
    ((runTask env t).task.status = .Completed ∨
      ((runTask env t).task.status = .Failed ∧
        (runTask env t).task.error.isSome = true)) ∧
    (GoodEnv env t.video_path → (runTask env t).task.status = .Completed) ∧
    ((t.checkpoint.audio_path.isSome = true ∧
      t.checkpoint.transcription.isSome = true ∧
      t.checkpoint.screenshot_candidates.isSome = true) →
      (runTask env t).task.status = .Completed) := by
  rcases stepExtract_shape env t.video_path t.checkpoint with ⟨a0, hap, hE⟩ |
    ⟨hap, p, hxp, hE⟩ | ⟨hap, e, hxe, hE⟩
  · obtain ⟨g1, g2, g3⟩ := runStage234_status env t t.checkpoint [] [] []
    simp only [runTask, hE]
    refine ⟨g1, ?_, ?_⟩
    · rintro ⟨_, hgt, hga⟩
      exact g2 ⟨hgt, hga, by simp [hap]⟩
    · rintro ⟨_, h2, h3⟩
      exact g3 ⟨h2, h3⟩
  · obtain ⟨g1, g2, g3⟩ := runStage234_status env t
      { t.checkpoint with audio_path := some p } [.extract] [.extract] [.Extracting]
    simp only [runTask, hE]
    refine ⟨g1, ?_, ?_⟩
    · rintro ⟨_, hgt, hga⟩
      exact g2 ⟨hgt, hga, by simp⟩
    · rintro ⟨h1, _, _⟩
      rw [hap] at h1
      cases h1
  · simp only [runTask, hE, failTask]
    refine ⟨Or.inr ⟨by simp, by simp⟩, ?_, ?_⟩
    · rintro ⟨⟨p, hp⟩, _, _⟩
      rw [hxe] at hp
      cases hp
    · rintro ⟨h1, _, _⟩
      rw [hap] at h1
      cases h1

theorem runTask_trace (env : Env) (t : Task) :
    ∃ tr1,
      List.Sublist tr1 [Status.Extracting, Status.Transcribing, Status.Analyzing,
        Status.CapturingScreenshots] ∧
      ((runTask env t).trace = tr1 ++ [Status.Completed] ∨
        (runTask env t).trace = tr1 ++ [Status.Failed]) := by
  rcases stepExtract_shape env t.video_path t.checkpoint with ⟨a0, hap, hE⟩ |
    ⟨hap, p, hxp, hE⟩ | ⟨hap, e, hxe, hE⟩
  · obtain ⟨tr2, hsub, hfin⟩ := runStage234_trace env t t.checkpoint [] [] []
    refine ⟨tr2, hsub.trans (by decide), ?_⟩
    simp only [runTask, hE]
    rcases hfin with h | h
    · exact Or.inl (by rw [h]; simp)
    · exact Or.inr (by rw [h]; simp)
  · obtain ⟨tr2, hsub, hfin⟩ := runStage234_trace env t
      { t.checkpoint with audio_path := some p } [.extract] [.extract] [.Extracting]
    refine ⟨.Extracting :: tr2, List.Sublist.cons₂ _ (hsub.trans (by decide)), ?_⟩
    simp only [runTask, hE]
    rcases hfin with h | h
    · exact Or.inl (by rw [h]; simp)
    · exact Or.inr (by rw [h]; simp)
  · exact ⟨[.Extracting], by decide, Or.inr (by simp [runTask, hE])⟩

theorem createTask_some_inv (st : UiState) (b : Backend) (tid : String)
    (h : (createTask st b).1 = some tid) :
    ∃ vp, st.selectedVideoPath = some vp ∧ st.apiKey ≠ "" ∧
      b.create_task vp st.apiKey = .ok tid := by
  cases hvp : st.selectedVideoPath with
  | none => simp [createTask, hvp] at h
  | some vp =>
    by_cases hkey : st.apiKey = ""
    · simp [createTask, hvp, hkey] at h
    · cases hb : b.create_task vp st.apiKey with
      | ok tid2 =>
        simp [createTask, hvp, hkey, hb] at h
        subst h
        exact ⟨vp, rfl, hkey, hb⟩
      | error e => simp [createTask, hvp, hkey, hb] at h

theorem processVideo_arg_inv (st : UiState) (b : Backend) (tid : String)
    (h : (processVideo st b).processTaskArg = some tid) :
    (createTask st b).1 = some tid := by
  rcases hC : createTask st b with ⟨r, st2⟩
  cases r with
  | none =>
    rw [processVideo, hC] at h
    simp at h
  | some tid2 =>
    rw [processVideo, hC] at h
    by_cases hemp : tid2 = ""
    · simp [hemp] at h
    · simp [hemp] at h
      simp [h]

/-- C1: a `process_task` call on a task whose checkpoint already records stage
N skips stage N (its external collaborator is not re-invoked), resumes from the
recorded progress and, when the remaining collaborators succeed, continues
until Completed; a checkpoint field is populated after the run iff it was
populated before or its stage completed successfully during the run, and a
fresh task's checkpoint has every stage field absent. -/
theorem claim_resume_reentrant (env : Env) (m : Manager) (id : Nat) (t : Task)
    (hfind : findTask m id = some t) (hrun : id ∉ m.running)
    (hst : t.status ≠ .Completed) :
    process_task env m id =
      (.ok (runTask env t).calls,
       { m with tasks := updateTask m.tasks id (runTask env t).task }) ∧
    (t.checkpoint.audio_path.isSome = true →
      StageName.extract ∉ (runTask env t).calls) ∧
    (t.checkpoint.transcription.isSome = true →
      StageName.transcribe ∉ (runTask env t).calls) ∧
    (t.checkpoint.screenshot_candidates.isSome = true →
      StageName.analyze ∉ (runTask env t).calls) ∧
    (GoodEnv env t.video_path → (runTask env t).task.status = .Completed) ∧
    ((runTask env t).task.checkpoint.audio_path.isSome = true ↔
      (t.checkpoint.audio_path.isSome = true ∨
        StageName.extract ∈ (runTask env t).done)) ∧
    ((runTask env t).task.checkpoint.transcription.isSome = true ↔
      (t.checkpoint.transcription.isSome = true ∨
        StageName.transcribe ∈ (runTask env t).done)) ∧
    ((runTask env t).task.checkpoint.screenshot_candidates.isSome = true ↔
      (t.checkpoint.screenshot_candidates.isSome = true ∨
        StageName.analyze ∈ (runTask env t).done)) ∧
    (runTask env t).done ⊆ (runTask env t).calls ∧
    emptyCheckpoint.audio_path = none ∧
    emptyCheckpoint.transcription = none ∧
    emptyCheckpoint.screenshot_candidates = none := by
  obtain ⟨k1, k2, k3, k4, k5, k6, k7⟩ := runTask_calls env t
  obtain ⟨s1, s2, s3⟩ := runTask_status env t
  refine ⟨?_, k1, k2, k3, s2, k5, k6, k7, k4, rfl, rfl, rfl⟩
  simp [process_task, hfind, hrun, hst]

/-- C3: `save` is an atomic step — a reader of the store sees either the old
document or the whole new one; a failed write raises `PersistenceError`,
leaves the previous on-disk checkpoint unchanged (a subsequent `load` returns
the last successfully saved value), and does not advance the task's status. -/
theorem claim_save_atomic (disk : Option Json) (c c0 cNew : Checkpoint)
    (t : Task) (next : Status) :
    save disk false c = .error .persistence ∧
    save disk true c = .ok (some (ckToJson c)) ∧
    load (some (ckToJson c)) = some c ∧
    stageCommit false (some (ckToJson c0)) t cNew next =
      (some (ckToJson c0), { t with error := some "PersistenceError" }) ∧
    load (stageCommit false (some (ckToJson c0)) t cNew next).1 = some c0 ∧
    (stageCommit false disk t cNew next).2.status = t.status ∧
    stageCommit true disk t cNew next =
      (some (ckToJson cNew),
       { t with checkpoint := cNew, status := next, error := none }) := by
  refine ⟨rfl, rfl, ?_, rfl, ?_, rfl, rfl⟩ <;>
    simp [load, stageCommit, save, checkpoint_round_trip]

/-- C4: when a run is already in progress for a task id, a further
`process_task` call on that id fails with `AlreadyRunning` and leaves the
manager — tasks, checkpoints and the existing run — entirely unchanged. -/
theorem claim_already_running (env : Env) (m : Manager) (id : Nat) (t : Task)
    (hfind : findTask m id = some t) (hrun : id ∈ m.running) :
    process_task env m id = (.error .alreadyRunning, m) ∧
    list_tasks (process_task env m id).2 = list_tasks m ∧
    (process_task env m id).2.running = m.running := by
  have h : process_task env m id = (.error .alreadyRunning, m) := by
    simp [process_task, hfind, hrun]
  exact ⟨h, by rw [h], by rw [h]⟩

/-- C5: the stage 2 and stage 3 output invariants are established by the run
and preserved from run to run — on any run from a well-formed checkpoint, a
populated transcription is ordered with `start ≤ end` per segment, and
populated screenshot candidates are strictly ascending with all timestamps
within the video duration (duplicates and out-of-bounds values filtered); the
invariant holds vacuously for a fresh task's empty checkpoint. -/
theorem claim_stage_output_invariants (env : Env) (t : Task)
    (h : CheckpointGood env.duration t.checkpoint) :
    CheckpointGood env.duration (runTask env t).task.checkpoint ∧
    CheckpointGood env.duration emptyCheckpoint ∧
    (∀ segs, (runTask env t).task.checkpoint.transcription = some segs →
      segsValid segs = true) ∧
    (∀ cs, (runTask env t).task.checkpoint.screenshot_candidates = some cs →
      (List.Chain' candLT cs ∧ ∀ x ∈ cs, x.timestamp ≤ env.duration)) := by
  obtain ⟨g1, g2, g3, g4, g5, g6, g7⟩ := runTask_checkpoint env t
  have htr : ∀ segs, (runTask env t).task.checkpoint.transcription = some segs →
      segsValid segs = true := by
    intro segs hsegs
    rcases g5 segs hsegs with hold | hvalid
    · exact h.1 segs hold
    · exact hvalid
  have hcs : ∀ cs, (runTask env t).task.checkpoint.screenshot_candidates = some cs →
      (List.Chain' candLT cs ∧ ∀ x ∈ cs, x.timestamp ≤ env.duration) := by
    intro cs hcs2
    rcases g6 cs hcs2 with hold | ⟨cands0, hnorm⟩
    · exact h.2 cs hold
    · subst hnorm
      exact ⟨normalizeCands_chain _ _, normalizeCands_le _ _⟩
  refine ⟨⟨htr, hcs⟩, ⟨?_, ?_⟩, htr, hcs⟩
  · intro segs hsegs
    cases hsegs
  · intro cs hcs2
    cases hcs2

/-- C6: under the default skip-and-continue policy, the stage 4 loop keeps
exactly the successfully captured-and-captioned candidates, only ever appends
to the recorded screenshots, never produces more screenshots than candidates,
and the task still reaches Completed after attempting the remaining candidates
even when some captures fail. -/
theorem claim_partial_screenshot_durability (env : Env) (t : Task)
    (cands : List Candidate)
    (hc : t.checkpoint.screenshot_candidates = some cands)
    (hlen : t.checkpoint.screenshots.length ≤ cands.length) :
    (∀ acc todo, captureLoop env acc todo = acc ++ todo.filterMap (shotOf env)) ∧
    (∀ acc todo, acc <+: captureLoop env acc todo) ∧
    (∀ acc todo, (captureLoop env acc todo).length ≤ acc.length + todo.length) ∧
    t.checkpoint.screenshots <+: (runTask env t).task.checkpoint.screenshots ∧
    (runTask env t).task.checkpoint.screenshots.length ≤ cands.length ∧
    ((t.checkpoint.audio_path.isSome = true ∧
      t.checkpoint.transcription.isSome = true) →
      (runTask env t).task.status = .Completed) := by
  obtain ⟨g1, g2, g3, g4, g5, g6, g7⟩ := runTask_checkpoint env t
  obtain ⟨s1, s2, s3⟩ := runTask_status env t
  refine ⟨?_, captureLoop_prefix env, captureLoop_length env, g4, g7 cands hc hlen, ?_⟩
  · intro acc todo
    rw [captureLoop_eq_append, captureLoop_nil_eq_filterMap]
  · rintro ⟨h1, h2⟩
    exact s3 ⟨h1, h2, by simp [hc]⟩

/-- C7: `create_task` on a path that does not exist or is not a supported
format fails with `InvalidInput`, returns no task id and leaves `list_tasks`
unchanged; on a valid path it appends exactly one new task with status =
Pending and the empty checkpoint, returning its fresh id. -/
theorem claim_create_task_validation (env : Env) (m : Manager) (vp : String) :
    ((env.fileExists vp = false ∨ env.isSupported vp = false) →
      (create_task env m vp = (.error .invalidInput, m) ∧
        list_tasks (create_task env m vp).2 = list_tasks m)) ∧
    ((env.fileExists vp = true ∧ env.isSupported vp = true) →
      create_task env m vp =
        (.ok m.nextId,
         { m with
           tasks := m.tasks ++
             [{ id := m.nextId, video_path := vp, status := .Pending,
                checkpoint := emptyCheckpoint, error := none, result := none }],
           nextId := m.nextId + 1 })) := by
  constructor
  · intro hbad
    have h : create_task env m vp = (.error .invalidInput, m) := by
      rcases hbad with h | h <;> simp [create_task, h]
    exact ⟨h, by rw [h]⟩
  · rintro ⟨h1, h2⟩
    simp [create_task, h1, h2]

/-- C8: Completed is terminal — `process_task` on a Completed task fails with
`InvalidState` and leaves the manager (hence the task's result) unchanged —
and within any run the statuses set progress strictly forward along
Pending → Extracting → Transcribing → Analyzing → CapturingScreenshots →
Completed, with Failed only ever set as the final status after some
non-terminal stage statuses. -/
theorem claim_completed_terminal (env : Env) (m : Manager) (id : Nat) (t : Task) :
    (findTask m id = some t → t.status = .Completed → id ∉ m.running →
      process_task env m id = (.error .invalidState, m)) ∧
    (∃ tr1,
      (∀ s ∈ tr1, s = Status.Extracting ∨ s = Status.Transcribing ∨
        s = Status.Analyzing ∨ s = Status.CapturingScreenshots) ∧
      ((runTask env t).trace = tr1 ++ [Status.Completed] ∨
        (runTask env t).trace = tr1 ++ [Status.Failed]) ∧
      List.Chain' (fun a b => statusRank a < statusRank b) (runTask env t).trace) := by
  constructor
  · intro hfind hst hrun
    simp [process_task, hfind, hrun, hst]
  · obtain ⟨tr1, hsub, hfin⟩ := runTask_trace env t
    refine ⟨tr1, ?_, hfin, ?_⟩
    · intro s hs
      have hmem := hsub.mem hs
      simpa using hmem
    · have hpwC : List.Pairwise (fun a b => statusRank a < statusRank b)
          [Status.Extracting, Status.Transcribing, Status.Analyzing,
           Status.CapturingScreenshots, Status.Completed] := by decide
      have hpwF : List.Pairwise (fun a b => statusRank a < statusRank b)
          [Status.Extracting, Status.Transcribing, Status.Analyzing,
           Status.CapturingScreenshots, Status.Failed] := by decide
      rcases hfin with h | h <;> rw [h]
      · exact (hpwC.sublist (hsub.append (List.Sublist.refl [Status.Completed]))).chain'
      · exact (hpwF.sublist (hsub.append (List.Sublist.refl [Status.Failed]))).chain'

/-- C9: a Failed task remains resumable — `process_task` accepts it and skips
the stages whose checkpoint fields were durably saved; a stage failure
preserves every previously populated checkpoint field and only appends to
screenshots; and after a failed run the task shows status = Failed with a
populated error field. -/
theorem claim_failed_resumable (env : Env) (m : Manager) (id : Nat) (t : Task) :
    (findTask m id = some t → t.status = .Failed → id ∉ m.running →
      process_task env m id =
        (.ok (runTask env t).calls,
         { m with tasks := updateTask m.tasks id (runTask env t).task })) ∧
    (∀ a, t.checkpoint.audio_path = some a →
      (runTask env t).task.checkpoint.audio_path = some a) ∧
    (∀ s, t.checkpoint.transcription = some s →
      (runTask env t).task.checkpoint.transcription = some s) ∧
    (∀ cs, t.checkpoint.screenshot_candidates = some cs →
      (runTask env t).task.checkpoint.screenshot_candidates = some cs) ∧
    t.checkpoint.screenshots <+: (runTask env t).task.checkpoint.screenshots ∧
    (t.checkpoint.audio_path.isSome = true →
      StageName.extract ∉ (runTask env t).calls) ∧
    (t.checkpoint.transcription.isSome = true →
      StageName.transcribe ∉ (runTask env t).calls) ∧
    (t.checkpoint.screenshot_candidates.isSome = true →
      StageName.analyze ∉ (runTask env t).calls) ∧
    ((runTask env t).task.status = .Failed →
      (runTask env t).task.error.isSome = true) := by
  obtain ⟨g1, g2, g3, g4, _⟩ := runTask_checkpoint env t
  obtain ⟨k1, k2, k3, _⟩ := runTask_calls env t
  obtain ⟨s1, _⟩ := runTask_status env t
  refine ⟨?_, g1, g2, g3, g4, k1, k2, k3, ?_⟩
  · intro hfind hst hrun
    have hne : t.status ≠ .Completed := by
      rw [hst]
      intro hcontra
      cases hcontra
    simp [process_task, hfind, hrun, hne]
  · intro hfailed
    rcases s1 with h | ⟨_, herr⟩
    · rw [hfailed] at h
      cases h
    · exact herr

/-- C10: in the command layer of `src/main.js`, `processVideo` only ever passes
`process_task` a task id returned by the `createTask` call made in the same
invocation, and when `createTask` returns null — no video selected, empty API
key, or a failed `create_task` invoke — `process_task` is not invoked and the
processing state is never entered. -/
theorem claim_ui_process_fresh_task (st : UiState) (b : Backend) :
    (∀ tid, (processVideo st b).processTaskArg = some tid →
      ((createTask st b).1 = some tid ∧
        ∃ vp, st.selectedVideoPath = some vp ∧ st.apiKey ≠ "" ∧
          b.create_task vp st.apiKey = .ok tid)) ∧
    ((createTask st b).1 = none →
      ((processVideo st b).processTaskArg = none ∧
        (processVideo st b).enteredProcessing = false)) ∧
    ((st.selectedVideoPath = none ∨ st.apiKey = "" ∨
        (∃ vp e, st.selectedVideoPath = some vp ∧
          b.create_task vp st.apiKey = .error e)) →
      (createTask st b).1 = none) := by
  refine ⟨?_, ?_, ?_⟩
  · intro tid harg
    have h1 := processVideo_arg_inv st b tid harg
    exact ⟨h1, createTask_some_inv st b tid h1⟩
  · intro hnone
    rcases hC : createTask st b with ⟨r, st2⟩
    rw [hC] at hnone
    simp only at hnone
    subst hnone
    simp [processVideo, hC]
  · rintro (h | h | ⟨vp, e, hvp, hb⟩)
    · simp [createTask, h]
    · cases hvp : st.selectedVideoPath with
      | none => simp [createTask, hvp]
      | some vp => simp [createTask, hvp, h]
    · by_cases hkey : st.apiKey = ""
      · simp [createTask, hvp, hkey]
      · simp [createTask, hvp, hkey, hb]

theorem claim_resume_reentrant_witness :
    (findTask mgrW 1 = some taskW ∧ (1 : Nat) ∉ mgrW.running ∧
      taskW.status ≠ .Completed) ∧
    (taskW.checkpoint.audio_path.isSome = true ∧
      StageName.extract ∉ (runTask envW taskW).calls) ∧
    (GoodEnv envW taskW.video_path ∧ (runTask envW taskW).task.status = .Completed) :=
  have hfind : findTask mgrW 1 = some taskW := by decide
  have hgood : GoodEnv envW taskW.video_path :=
    ⟨⟨"audio.wav", rfl⟩,
     fun _ => ⟨[{ start := 0, «end» := 2, text := "hello" }], rfl, by decide⟩,
     fun _ => ⟨[{ timestamp := 1, rationale := "intro" }], rfl⟩⟩
  have main := claim_resume_reentrant envW mgrW 1 taskW hfind (by decide) (by decide)
  ⟨⟨hfind, by decide, by decide⟩,
   ⟨by decide, main.2.1 (by decide)⟩,
   ⟨hgood, main.2.2.2.2.1 hgood⟩⟩

theorem claim_already_running_witness :
    (findTask mgrRun 1 = some taskW ∧ (1 : Nat) ∈ mgrRun.running) ∧
    process_task envW mgrRun 1 = (.error .alreadyRunning, mgrRun) :=
  ⟨⟨by decide, by decide⟩,
   (claim_already_running envW mgrRun 1 taskW (by decide) (by decide)).1⟩

theorem claim_stage_output_invariants_witness :
    CheckpointGood envW.duration taskW.checkpoint ∧
    CheckpointGood envW.duration (runTask envW taskW).task.checkpoint :=
  have hgood : CheckpointGood envW.duration taskW.checkpoint :=
    ⟨fun _ h => Option.noConfusion h, fun _ h => Option.noConfusion h⟩
  ⟨hgood, (claim_stage_output_invariants envW taskW hgood).1⟩

theorem claim_partial_screenshot_durability_witness :
    (taskFull.checkpoint.screenshot_candidates = some candsW ∧
      taskFull.checkpoint.screenshots.length ≤ candsW.length) ∧
    ((runTask envFail taskFull).task.checkpoint.screenshots.length ≤ candsW.length ∧
      (runTask envFail taskFull).task.status = .Completed) :=
  have main := claim_partial_screenshot_durability envFail taskFull candsW rfl (by decide)
  ⟨⟨rfl, by decide⟩, ⟨main.2.2.2.2.1, main.2.2.2.2.2 ⟨by decide, by decide⟩⟩⟩

theorem claim_create_task_validation_witness :
    (envBad.fileExists "missing.mp4" = false ∨
      envBad.isSupported "missing.mp4" = false) ∧
    (create_task envBad mgrW "missing.mp4" = (.error .invalidInput, mgrW) ∧
      list_tasks (create_task envBad mgrW "missing.mp4").2 = list_tasks mgrW) ∧
    (create_task envW mgrW "v2.mp4").2.tasks =
      mgrW.tasks ++ [{ id := mgrW.nextId, video_path := "v2.mp4", status := .Pending,
                       checkpoint := emptyCheckpoint, error := none, result := none }] :=
  ⟨Or.inl rfl,
   (claim_create_task_validation envBad mgrW "missing.mp4").1 (Or.inl rfl),
   by rw [(claim_create_task_validation envW mgrW "v2.mp4").2 ⟨rfl, rfl⟩]⟩

theorem claim_completed_terminal_witness :
    (findTask mgrDone 4 = some taskDone ∧ taskDone.status = .Completed ∧
      (4 : Nat) ∉ mgrDone.running) ∧
    process_task envW mgrDone 4 = (.error .invalidState, mgrDone) :=
  ⟨⟨by decide, rfl, by decide⟩,
   (claim_completed_terminal envW mgrDone 4 taskDone).1 (by decide) rfl (by decide)⟩

theorem claim_failed_resumable_witness :
    (findTask mgrFailed 6 = some taskFailed ∧ taskFailed.status = .Failed ∧
      (6 : Nat) ∉ mgrFailed.running) ∧
    process_task envW mgrFailed 6 =
      (.ok (runTask envW taskFailed).calls,
       { mgrFailed with tasks := updateTask mgrFailed.tasks 6 (runTask envW taskFailed).task }) ∧
    (taskFailed.checkpoint.audio_path = some "a.wav" ∧
      (runTask envW taskFailed).task.checkpoint.audio_path = some "a.wav") :=
  have main := claim_failed_resumable envW mgrFailed 6 taskFailed
  ⟨⟨by decide, rfl, by decide⟩,
   main.1 (by decide) rfl (by decide),
   ⟨rfl, main.2.1 "a.wav" rfl⟩⟩

theorem claim_ui_process_fresh_task_witness :
    (createTask stNoVideo backendW).1 = none ∧
    (processVideo stNoVideo backendW).processTaskArg = none ∧
    (processVideo stNoVideo backendW).enteredProcessing = false :=
  have h := claim_ui_process_fresh_task stNoVideo backendW
  have hnone : (createTask stNoVideo backendW).1 = none := h.2.2 (Or.inl rfl)
  ⟨hnone, (h.2.1 hnone).1, (h.2.1 hnone).2⟩

end Ava
